import Mathlib

/-!
Verification of the fastfits FITS decoding and tone-mapping pipeline
(`src/fits.rs`), as a shallow embedding over exact rationals.

Embedding conventions:
* `f32` / `f64` values are modelled as `ℚ` (exact arithmetic; float literals
  such as `0.0002` become the exact rationals they denote in the source
  text).  Every `ℚ` is finite, so `is_finite` tests from the source are
  identically true here.
* Rust `as usize` casts of non-negative floats are `Int.toNat ∘ Int.floor`
  (truncation toward zero, saturating at 0).
* Rust `f32::round` (half away from zero) is `roundQ` below.
* Byte outputs (`u8`) are modelled as `ℕ` values in `[0, 255]`.
* Rust `Vec` is `List`; the in-bounds slice `&data[a..b]` is
  `(data.drop a).take (b - a)`; panicking index `lut[i]` is `List.getD`
  (all uses are proved in bounds).
* Rust strings are Lean `String`s; FITS cards are ASCII, where Rust's
  byte-wise slicing/length coincide with Lean's character-wise ones.
-/

namespace Fastfits

/-- Rust `f32::clamp(lo, hi)`: `lo` if below, `hi` if above, else the value. -/
def clampQ (x lo hi : ℚ) : ℚ := max lo (min x hi)

/-- Rust `f32::round`: round half away from zero, as an integer. -/
def roundQ (x : ℚ) : ℤ := if 0 ≤ x then ⌊x + 1/2⌋ else -⌊-x + 1/2⌋

/-- `LUT_SIZE` constant from `src/fits.rs`. -/
def LUT_SIZE : ℕ := 4096

/-- Midtone Transfer Function `mtf` from `src/fits.rs` (lines 448-468),
translated branch for branch. -/
def mtf (x m : ℚ) : ℚ :=
  if x ≤ 0 then 0
  else if 1 ≤ x then 1
  else if m ≤ 0 then 0
  else if 1 ≤ m then 1
  else
    let num := (m - 1) * x
    let den := (2 * m - 1) * x - m
    if |den| < 1/1000000000 then 1/2
    else clampQ (num / den) 0 1

-- ---------------------------------------------------------------------------
-- Basic clamp lemmas
-- ---------------------------------------------------------------------------

lemma clampQ_le_hi (x lo hi : ℚ) (h : lo ≤ hi) : clampQ x lo hi ≤ hi := by
  unfold clampQ
  exact max_le h (min_le_right _ _)

lemma le_clampQ_lo (x lo hi : ℚ) : lo ≤ clampQ x lo hi := le_max_left _ _

lemma clampQ_eq_self (x lo hi : ℚ) (h1 : lo ≤ x) (h2 : x ≤ hi) :
    clampQ x lo hi = x := by
  unfold clampQ
  rw [min_eq_left h2, max_eq_right h1]

lemma clampQ_mono (x y lo hi : ℚ) (h : x ≤ y) :
    clampQ x lo hi ≤ clampQ y lo hi := by
  unfold clampQ
  exact max_le_max le_rfl (min_le_min h le_rfl)

/-- Claim C1.  The midtone transfer function `mtf` satisfies: for every `m`
strictly between 0 and 1, `MTF(0,m)=0`, `MTF(1,m)=1` and `MTF(m,m)=1/2`;
for every `m`, inputs `x ≤ 0` return 0 and `x ≥ 1` return 1; for every `x`
strictly between 0 and 1, `m ≤ 0` returns 0 and `m ≥ 1` returns 1; and
(inside the non-degenerate region, which is where the source performs the
test) a denominator `(2m-1)x - m` of absolute value below `1e-9` yields
`1/2`. -/
theorem mtf_spec (x m : ℚ) :
    (0 < m → m < 1 → mtf 0 m = 0 ∧ mtf 1 m = 1 ∧ mtf m m = 1/2)
    ∧ (x ≤ 0 → mtf x m = 0)
    ∧ (1 ≤ x → mtf x m = 1)
    ∧ (0 < x → x < 1 → m ≤ 0 → mtf x m = 0)
    ∧ (0 < x → x < 1 → 1 ≤ m → mtf x m = 1)
    ∧ (0 < x → x < 1 → 0 < m → m < 1 →
        |(2 * m - 1) * x - m| < 1/1000000000 → mtf x m = 1/2) := by
  refine ⟨fun hm0 hm1 => ⟨?_, ?_, ?_⟩, fun h => ?_, fun h => ?_,
    fun hx0 hx1 hm => ?_, fun hx0 hx1 hm => ?_, fun hx0 hx1 hm0 hm1 hden => ?_⟩
  · simp [mtf]
  · simp [mtf]
  · -- MTF(m, m) = 1/2
    have hne : ¬ m ≤ 0 := not_le.mpr hm0
    have hne1 : ¬ 1 ≤ m := not_le.mpr hm1
    unfold mtf
    simp only [hne, hne1, if_false]
    by_cases hd : |(2 * m - 1) * m - m| < 1/1000000000
    · rw [if_pos hd]
    · rw [if_neg hd]
      have hden : (2 * m - 1) * m - m ≠ 0 := by
        intro h0
        rw [h0] at hd
        norm_num at hd
      have : (m - 1) * m / ((2 * m - 1) * m - m) = 1/2 := by
        rw [div_eq_iff hden]
        ring
      rw [this, clampQ_eq_self] <;> norm_num
  · simp [mtf, h]
  · have : ¬ x ≤ 0 := by
      intro h0
      have := lt_of_lt_of_le (lt_of_lt_of_le one_pos h) h0
      norm_num at this
    simp [mtf, this, h]
  · simp [mtf, not_le.mpr hx0, not_le.mpr hx1, hm]
  · have h0 : ¬ x ≤ 0 := not_le.mpr hx0
    have h1 : ¬ 1 ≤ x := not_le.mpr hx1
    have h2 : ¬ m ≤ 0 := not_le.mpr (lt_of_lt_of_le one_pos hm)
    simp [mtf, h0, h1, h2, hm]
  · have h0 : ¬ x ≤ 0 := not_le.mpr hx0
    have h1 : ¬ 1 ≤ x := not_le.mpr hx1
    have h2 : ¬ m ≤ 0 := not_le.mpr hm0
    have h3 : ¬ 1 ≤ m := not_le.mpr hm1
    unfold mtf
    simp only [h0, h1, h2, h3, if_false]
    rw [if_pos hden]

/-- Witness for C1: the theorem applied at concrete inputs. -/
theorem mtf_spec_witness :
    mtf 0 (1/2) = 0 ∧ mtf 1 (1/2) = 1 ∧ mtf (1/2) (1/2) = 1/2 :=
  (mtf_spec (1/2) (1/2)).1 (by norm_num) (by norm_num)

-- ---------------------------------------------------------------------------
-- Histogram statistics (percentile_norm, median_mad_hist) from src/fits.rs
-- ---------------------------------------------------------------------------

/-- Histogram bin of a value: the source's
`(((v - min) / range).clamp(0.0, 1.0) * (BINS - 1) as f32) as usize`
followed by `.min(BINS - 1)`, with `BINS = 4096`. -/
def binOf (mn range v : ℚ) : ℕ :=
  min (Int.toNat ⌊clampQ ((v - mn) / range) 0 1 * 4095⌋) 4095

/-- Cumulative histogram count: number of samples whose bin is `≤ i`.
This is the value of the source's running `cumsum` after processing bin `i`.
(Every `ℚ` sample is finite, so the `is_finite` filter keeps everything.) -/
def cumCount (data : List ℚ) (mn range : ℚ) (i : ℕ) : ℕ :=
  (data.filter (fun v => binOf mn range v ≤ i)).length

/-- The cut-off rank `target` of `percentile_norm`:
`((count as f64 * pctile).ceil() as u64).min(count)`. -/
def pct_target (data : List ℚ) (pctile : ℚ) : ℕ :=
  min (Int.toNat ⌈(data.length : ℚ) * pctile⌉) data.length

/-- The bin search of `percentile_norm`: first bin index whose cumulative
count reaches `target` (the source's early-returning `for` loop). -/
def pct_find (data : List ℚ) (mn range : ℚ) (target : ℕ) : Option ℕ :=
  (List.range 4096).find? (fun i => target ≤ cumCount data mn range i)

/-- `percentile_norm` from `src/fits.rs` (lines 417-444): the value at
`pctile` of `data` as a fraction of the `[min, max]` range, computed with a
4096-bin histogram. -/
def percentile_norm (data : List ℚ) (mn mx : ℚ) (pctile : ℚ) : ℚ :=
  let range := mx - mn
  if range = 0 then 1
  else
    if data.length = 0 then 1
    else
      match pct_find data mn range (pct_target data pctile) with
      | some i => (i : ℚ) / 4095
      | none => 1

/-- Deviation-histogram bin used by the MAD pass of `median_mad_hist`. -/
def devBinOf (mn range median max_dev v : ℚ) : ℕ :=
  let norm := clampQ ((v - mn) / range) 0 1
  let dev := |norm - median|
  min (Int.toNat ⌊dev / max_dev * 4095⌋) 4095

/-- Cumulative deviation-histogram count (samples with deviation bin `≤ i`). -/
def cumDevCount (data : List ℚ) (mn range median max_dev : ℚ) (i : ℕ) : ℕ :=
  (data.filter (fun v => devBinOf mn range median max_dev v ≤ i)).length

/-- `median_mad_hist` from `src/fits.rs` (lines 472-530): histogram estimate
of the median and MAD of `data` normalised to `[0,1]`.  The Rust loop leaves
`median_bin = 0` when the cumulative count never reaches `half`, rendered
here by `Option.getD 0`. -/
def median_mad_hist (data : List ℚ) (mn mx : ℚ) : ℚ × ℚ :=
  let range := mx - mn
  if range = 0 then (1/2, 0)
  else
    let count := data.length
    if count = 0 then (1/2, 0)
    else
      let half := (count + 1) / 2
      let median_bin :=
        ((List.range 4096).find? (fun i => half ≤ cumCount data mn range i)).getD 0
      let median := (median_bin : ℚ) / 4095
      let max_dev := max (max median (1 - median)) (1/1000000000)
      let mad_bin :=
        ((List.range 4096).find?
          (fun i => half ≤ cumDevCount data mn range median max_dev i)).getD 0
      let mad := (mad_bin : ℚ) / 4095 * max_dev
      (median, mad)

-- ---------------------------------------------------------------------------
-- AutoStretch LUT (autostretch_lut) from src/fits.rs
-- ---------------------------------------------------------------------------

/-- Normalisation ceiling: `if bitdepth_max > 0.0 { bitdepth_max } else { data_max }`. -/
def bd_of (bitdepth_max data_max : ℚ) : ℚ :=
  if 0 < bitdepth_max then bitdepth_max else data_max

/-- Low percentile clip `lo_bd` (`percentile_norm(data, 0.0, bd, 0.0002)`). -/
def lo_bd_of (data : List ℚ) (bd : ℚ) : ℚ := percentile_norm data 0 bd (2/10000)

/-- High percentile clip `hi_bd` (`percentile_norm(data, 0.0, bd, 0.9998)`). -/
def hi_bd_of (data : List ℚ) (bd : ℚ) : ℚ := percentile_norm data 0 bd (9998/10000)

/-- Background level `x_bg` of `autostretch_lut`: the median inside the
inlier range, mapped back to bitdepth-normalised space and clamped to
`[1e-6, 1 - 1e-6]`. -/
def xbg_of (data : List ℚ) (lo_bd hi_bd bd : ℚ) : ℚ :=
  let eff_min := lo_bd * bd
  let eff_max := hi_bd * bd
  let median_frac := (median_mad_hist data eff_min eff_max).1
  let eff_span := (eff_max - eff_min) / bd
  clampQ (lo_bd + median_frac * eff_span) (1/1000000) (1 - 1/1000000)

/-- Midtone parameter `m` of `autostretch_lut`: solves
`MTF(x_bg, m) = TARGET_BG` with `TARGET_BG = 0.10`, falling back to
`TARGET_BG` when the closed-form denominator is nearly zero. -/
def m_of (x_bg : ℚ) : ℚ :=
  let t : ℚ := 1/10
  let denom := 2 * x_bg * t - t - x_bg
  if 1/1000000000 < |denom| then clampQ (x_bg * (t - 1) / denom) 0 1 else t

/-- One mid-range LUT entry: `(mtf(x, m) * 255.0).round().clamp(0.0, 255.0) as u8`. -/
def mtf_out (x m : ℚ) : ℕ := (min 255 (max 0 (roundQ (mtf x m * 255)))).toNat

/-- `autostretch_lut` from `src/fits.rs` (lines 350-413): Siril-style MTF
autostretch LUT of `LUT_SIZE` byte entries. -/
def autostretch_lut (data : List ℚ) (data_min data_max bitdepth_max : ℚ) :
    List ℕ :=
  let range := data_max - data_min
  if range = 0 then List.replicate LUT_SIZE 128
  else
    let bd := bd_of bitdepth_max data_max
    if bd = 0 then List.replicate LUT_SIZE 128
    else
      let lo_bd := lo_bd_of data bd
      let hi_bd := hi_bd_of data bd
      if hi_bd ≤ lo_bd then List.replicate LUT_SIZE 128
      else
        let x_bg := xbg_of data lo_bd hi_bd bd
        let m := m_of x_bg
        (List.range LUT_SIZE).map (fun (i : ℕ) =>
          let v := data_min + ((i : ℚ) / ((LUT_SIZE : ℚ) - 1)) * range
          let x := clampQ (v / bd) 0 1
          if x ≤ lo_bd then 0
          else if hi_bd ≤ x then 255
          else mtf_out x m)

/-- Claim C3.  `autostretch_lut` never fails on degenerate input: a zero
value range (constant plane), a zero normalisation ceiling, or a high
percentile at or below the low percentile each yield a flat mid-gray curve
of 4096 entries all equal to 128. -/
theorem autostretch_lut_degenerate (data : List ℚ) (d_min d_max bdm : ℚ)
    (h : d_max - d_min = 0 ∨ bd_of bdm d_max = 0 ∨
      hi_bd_of data (bd_of bdm d_max) ≤ lo_bd_of data (bd_of bdm d_max)) :
    autostretch_lut data d_min d_max bdm = List.replicate 4096 128 := by
  unfold autostretch_lut
  rcases h with h | h | h
  · rw [if_pos h]
    rfl
  · by_cases hr : d_max - d_min = 0
    · rw [if_pos hr]
      rfl
    · rw [if_neg hr, if_pos h]
      rfl
  · by_cases hr : d_max - d_min = 0
    · rw [if_pos hr]
      rfl
    · rw [if_neg hr]
      by_cases hb : bd_of bdm d_max = 0
      · rw [if_pos hb]
        rfl
      · rw [if_neg hb, if_pos h]
        rfl

/-- Witness for C3: a constant plane (`data_min = data_max`) produces the
flat mid-gray curve. -/
theorem autostretch_lut_degenerate_witness :
    autostretch_lut [5, 5, 5] 5 5 0 = List.replicate 4096 128 :=
  autostretch_lut_degenerate [5, 5, 5] 5 5 0 (Or.inl (by norm_num))

-- ---------------------------------------------------------------------------
-- Bounds on the autostretch intermediate quantities
-- ---------------------------------------------------------------------------

lemma percentile_norm_nonneg (data : List ℚ) (mn mx p : ℚ) :
    0 ≤ percentile_norm data mn mx p := by
  unfold percentile_norm
  dsimp only
  split_ifs with h1 h2
  · norm_num
  · norm_num
  · rcases hf : pct_find data mn (mx - mn) (pct_target data p) with _ | i
    · simp [hf]
    · simp only [hf]
      positivity

lemma percentile_norm_le_one (data : List ℚ) (mn mx p : ℚ) :
    percentile_norm data mn mx p ≤ 1 := by
  unfold percentile_norm
  dsimp only
  split_ifs with h1 h2
  · norm_num
  · norm_num
  · rcases hf : pct_find data mn (mx - mn) (pct_target data p) with _ | i
    · simp [hf]
    · simp only [hf]
      unfold pct_find at hf
      have hmem : i ∈ List.range 4096 := List.mem_of_find?_eq_some hf
      have hlt : i < 4096 := List.mem_range.mp hmem
      have : (i : ℚ) ≤ 4095 := by
        exact_mod_cast Nat.le_of_lt_succ hlt
      rw [div_le_one (by norm_num)]
      exact this

lemma xbg_of_bounds (data : List ℚ) (lo hi bd : ℚ) :
    1/1000000 ≤ xbg_of data lo hi bd ∧ xbg_of data lo hi bd ≤ 1 - 1/1000000 := by
  unfold xbg_of
  exact ⟨le_clampQ_lo _ _ _, clampQ_le_hi _ _ _ (by norm_num)⟩

lemma m_of_bounds (x : ℚ) (h1 : 1/1000000 ≤ x) (h2 : x ≤ 1 - 1/1000000) :
    1/1000000 ≤ m_of x ∧ m_of x ≤ 1 - 1/9000000 := by
  have hx0 : 0 < x := lt_of_lt_of_le (by norm_num) h1
  have hx1 : x < 1 := lt_of_le_of_lt h2 (by norm_num)
  unfold m_of
  have hdeq : 2 * x * (1/10) - 1/10 - x = -((8 * x + 1)/10) := by ring
  have hpos : 0 < (8 * x + 1)/10 := by linarith
  have habs : |2 * x * (1/10) - 1/10 - x| = (8 * x + 1)/10 := by
    rw [hdeq, abs_neg, abs_of_pos hpos]
  rw [if_pos (by rw [habs]; linarith)]
  have hdne : 2 * x * (1/10) - 1/10 - x ≠ 0 := by
    rw [hdeq]
    intro h
    rw [neg_eq_zero] at h
    linarith
  have hne8 : (8 * x + 1) ≠ 0 := by linarith
  have hval : x * (1/10 - 1) / (2 * x * (1/10) - 1/10 - x) = 9 * x / (8 * x + 1) := by
    rw [div_eq_div_iff hdne hne8]
    ring
  rw [hval]
  have hp8 : (0:ℚ) < 8 * x + 1 := by linarith
  have hlow : 1/1000000 ≤ 9 * x / (8 * x + 1) := by
    rw [le_div_iff hp8]
    linarith
  have hhigh : 9 * x / (8 * x + 1) ≤ 1 - 1/9000000 := by
    rw [div_le_iff hp8]
    linarith
  rw [clampQ_eq_self _ _ _ (by linarith) (by linarith)]
  exact ⟨hlow, hhigh⟩

-- ---------------------------------------------------------------------------
-- Monotonicity of mtf in the interior
-- ---------------------------------------------------------------------------

lemma mtf_nonneg (x m : ℚ) : 0 ≤ mtf x m := by
  unfold mtf
  dsimp only
  split_ifs
  · norm_num
  · norm_num
  · norm_num
  · norm_num
  · norm_num
  · exact le_clampQ_lo _ _ _

lemma mtf_interior (x m : ℚ) (hx0 : 0 < x) (hx1 : x < 1)
    (hm0 : 1/1000000 ≤ m) (hm1 : m ≤ 1 - 1/9000000) :
    mtf x m = clampQ ((1 - m) * x / (m + x - 2 * m * x)) 0 1
    ∧ 1/9000000 ≤ m + x - 2 * m * x := by
  have hm0' : (0:ℚ) < m := lt_of_lt_of_le (by norm_num) hm0
  have hm1' : m < 1 := lt_of_le_of_lt hm1 (by norm_num)
  have hm9 : 1/9000000 ≤ m := le_trans (by norm_num) hm0
  have hm9' : 1/9000000 ≤ 1 - m := by linarith
  have hD : 1/9000000 ≤ m + x - 2 * m * x := by
    nlinarith [mul_nonneg (by linarith : (0:ℚ) ≤ m - 1/9000000) (by linarith : (0:ℚ) ≤ 1 - x),
      mul_nonneg (by linarith : (0:ℚ) ≤ 1 - m - 1/9000000) hx0.le]
  have hDpos : 0 < m + x - 2 * m * x := lt_of_lt_of_le (by norm_num) hD
  have hden_eq : (2 * m - 1) * x - m = -(m + x - 2 * m * x) := by ring
  have habs : |(2 * m - 1) * x - m| = m + x - 2 * m * x := by
    rw [hden_eq, abs_neg, abs_of_pos hDpos]
  have hnb : ¬ |(2 * m - 1) * x - m| < 1/1000000000 := by
    rw [habs]
    push_neg
    linarith
  have hdne : (2 * m - 1) * x - m ≠ 0 := by
    rw [hden_eq, neg_ne_zero]
    exact ne_of_gt hDpos
  have hfrac : (m - 1) * x / ((2 * m - 1) * x - m) =
      (1 - m) * x / (m + x - 2 * m * x) := by
    rw [div_eq_div_iff hdne (ne_of_gt hDpos)]
    ring
  constructor
  · unfold mtf
    simp only [not_le.mpr hx0, not_le.mpr hx1, not_le.mpr hm0', not_le.mpr hm1', if_false]
    rw [if_neg hnb, hfrac]
  · exact hD

lemma mtf_mono (m x1 x2 : ℚ) (hm0 : 1/1000000 ≤ m) (hm1 : m ≤ 1 - 1/9000000)
    (h1 : 0 < x1) (h12 : x1 ≤ x2) (h2 : x2 < 1) :
    mtf x1 m ≤ mtf x2 m := by
  obtain ⟨he1, hD1⟩ := mtf_interior x1 m h1 (lt_of_le_of_lt h12 h2) hm0 hm1
  obtain ⟨he2, hD2⟩ := mtf_interior x2 m (lt_of_lt_of_le h1 h12) h2 hm0 hm1
  rw [he1, he2]
  apply clampQ_mono
  have hD1' : 0 < m + x1 - 2 * m * x1 := lt_of_lt_of_le (by norm_num) hD1
  have hD2' : 0 < m + x2 - 2 * m * x2 := lt_of_lt_of_le (by norm_num) hD2
  rw [div_le_div_iff hD1' hD2']
  have hm0' : (0:ℚ) ≤ m := le_trans (by norm_num) hm0
  have hm1' : m ≤ 1 := le_trans hm1 (by norm_num)
  have key : (1 - m) * x2 * (m + x1 - 2 * m * x1) -
      (1 - m) * x1 * (m + x2 - 2 * m * x2) = (1 - m) * m * (x2 - x1) := by
    ring
  have hnn : 0 ≤ (1 - m) * m * (x2 - x1) :=
    mul_nonneg (mul_nonneg (by linarith) hm0') (by linarith)
  linarith

-- ---------------------------------------------------------------------------
-- Monotonicity of the byte output
-- ---------------------------------------------------------------------------

lemma mtf_out_le_255 (x m : ℚ) : mtf_out x m ≤ 255 := by
  unfold mtf_out
  exact Int.toNat_le.mpr (le_trans (min_le_left _ _) (by norm_num))

lemma mtf_out_mono (x1 x2 m : ℚ) (h : mtf x1 m ≤ mtf x2 m) :
    mtf_out x1 m ≤ mtf_out x2 m := by
  unfold mtf_out
  apply Int.toNat_le_toNat
  apply min_le_min le_rfl
  apply max_le_max le_rfl
  unfold roundQ
  have h1 : (0:ℚ) ≤ mtf x1 m * 255 := mul_nonneg (mtf_nonneg _ _) (by norm_num)
  have h2 : (0:ℚ) ≤ mtf x2 m * 255 := mul_nonneg (mtf_nonneg _ _) (by norm_num)
  rw [if_pos h1, if_pos h2]
  apply Int.floor_le_floor
  nlinarith

/-- `List.getD` of a `map` over `List.range`. -/
lemma getD_map_range (n : ℕ) (f : ℕ → ℕ) (i : ℕ) (h : i < n) :
    ((List.range n).map f).getD i 0 = f i := by
  rw [List.getD_eq_getElem?_getD, List.getElem?_map, List.getElem?_range h]
  rfl

/-- Claim C2.  For every plane on which autostretch is non-degenerate
(data max strictly above data min, positive normalisation ceiling, high
percentile strictly above the low percentile), the 4096-entry LUT returned
by `autostretch_lut` is monotonically non-decreasing in its index. -/
theorem autostretch_lut_monotone (data : List ℚ) (d_min d_max bdm : ℚ)
    (hrange : d_min < d_max)
    (hbd : 0 < bd_of bdm d_max)
    (hlh : lo_bd_of data (bd_of bdm d_max) < hi_bd_of data (bd_of bdm d_max))
    (i j : ℕ) (hij : i ≤ j) (hj : j < 4096) :
    (autostretch_lut data d_min d_max bdm).getD i 0 ≤
      (autostretch_lut data d_min d_max bdm).getD j 0 := by
  have hr : ¬ (d_max - d_min = 0) := by
    intro h
    linarith
  have hb : ¬ (bd_of bdm d_max = 0) := ne_of_gt hbd
  have hlh' : ¬ (hi_bd_of data (bd_of bdm d_max) ≤ lo_bd_of data (bd_of bdm d_max)) :=
    not_le.mpr hlh
  have hlut : autostretch_lut data d_min d_max bdm =
      (List.range LUT_SIZE).map (fun (k : ℕ) =>
        let v := d_min + ((k : ℚ) / ((LUT_SIZE : ℚ) - 1)) * (d_max - d_min)
        let x := clampQ (v / bd_of bdm d_max) 0 1
        if x ≤ lo_bd_of data (bd_of bdm d_max) then 0
        else if hi_bd_of data (bd_of bdm d_max) ≤ x then 255
        else mtf_out x (m_of (xbg_of data (lo_bd_of data (bd_of bdm d_max))
          (hi_bd_of data (bd_of bdm d_max)) (bd_of bdm d_max)))) := by
    unfold autostretch_lut
    rw [if_neg hr, if_neg hb, if_neg hlh']
  have hi4096 : i < LUT_SIZE := lt_of_le_of_lt hij hj
  have hj4096 : j < LUT_SIZE := hj
  rw [hlut, getD_map_range _ _ i hi4096, getD_map_range _ _ j hj4096]
  dsimp only
  set bd := bd_of bdm d_max with hbdd
  set lo := lo_bd_of data bd with hlod
  set hi2 := hi_bd_of data bd with hhid
  set m := m_of (xbg_of data lo hi2 bd) with hmd
  have hvij : d_min + ((i : ℚ) / ((LUT_SIZE : ℚ) - 1)) * (d_max - d_min) ≤
      d_min + ((j : ℚ) / ((LUT_SIZE : ℚ) - 1)) * (d_max - d_min) := by
    have hcast : (i : ℚ) ≤ (j : ℚ) := by exact_mod_cast hij
    have h4095 : (0:ℚ) < (LUT_SIZE : ℚ) - 1 := by norm_num [LUT_SIZE]
    gcongr
    linarith
  have hxij : clampQ ((d_min + ((i : ℚ) / ((LUT_SIZE : ℚ) - 1)) * (d_max - d_min)) / bd) 0 1 ≤
      clampQ ((d_min + ((j : ℚ) / ((LUT_SIZE : ℚ) - 1)) * (d_max - d_min)) / bd) 0 1 := by
    apply clampQ_mono
    gcongr
  set xi := clampQ ((d_min + ((i : ℚ) / ((LUT_SIZE : ℚ) - 1)) * (d_max - d_min)) / bd) 0 1
  set xj := clampQ ((d_min + ((j : ℚ) / ((LUT_SIZE : ℚ) - 1)) * (d_max - d_min)) / bd) 0 1
  have hlo0 : 0 ≤ lo := by
    rw [hlod]
    unfold lo_bd_of
    exact percentile_norm_nonneg _ _ _ _
  have hhi1 : hi2 ≤ 1 := by
    rw [hhid]
    unfold hi_bd_of
    exact percentile_norm_le_one _ _ _ _
  have hxbg := xbg_of_bounds data lo hi2 bd
  have hmb := m_of_bounds _ hxbg.1 hxbg.2
  by_cases c1 : xi ≤ lo
  · rw [if_pos c1]
    exact Nat.zero_le _
  · rw [if_neg c1]
    have c1j : ¬ xj ≤ lo := fun h => c1 (le_trans hxij h)
    rw [if_neg c1j]
    by_cases c2 : hi2 ≤ xi
    · rw [if_pos c2, if_pos (le_trans c2 hxij)]
    · rw [if_neg c2]
      by_cases c3 : hi2 ≤ xj
      · rw [if_pos c3]
        exact mtf_out_le_255 _ _
      · rw [if_neg c3]
        apply mtf_out_mono
        exact mtf_mono m xi xj hmb.1 hmb.2
          (lt_of_le_of_lt hlo0 (not_le.mp c1)) hxij
          (lt_of_lt_of_le (not_le.mp c3) hhi1)

-- ---------------------------------------------------------------------------
-- Concrete evaluation of the percentile machinery on the two-pixel plane
-- [0, 1/4095] with ceiling 1 (used by the autostretch witnesses)
-- ---------------------------------------------------------------------------

lemma find?_range_zero (n : ℕ) (p : ℕ → Bool) (hn : 0 < n) (hp : p 0 = true) :
    (List.range n).find? p = some 0 := by
  obtain ⟨m, rfl⟩ := Nat.exists_eq_succ_of_ne_zero (Nat.pos_iff_ne_zero.mp hn)
  rw [List.range_succ_eq_map, List.find?_cons_of_pos _ hp]

lemma find?_range_one (n : ℕ) (p : ℕ → Bool) (hn : 2 ≤ n) (h0 : p 0 = false)
    (h1 : p 1 = true) : (List.range n).find? p = some 1 := by
  obtain ⟨m, rfl⟩ : ∃ m, n = m + 2 := ⟨n - 2, by omega⟩
  rw [show m + 2 = (m + 1) + 1 by omega, List.range_succ_eq_map,
    List.find?_cons_of_neg _ (by simp [h0]), List.find?_map,
    List.range_succ_eq_map, List.find?_cons_of_pos _ (by simpa using h1)]
  rfl

lemma percentile_norm_eq_of_find (data : List ℚ) (mn mx p : ℚ) (i : ℕ)
    (hr : ¬ (mx - mn = 0)) (hc : ¬ (data.length = 0))
    (hf : pct_find data mn (mx - mn) (pct_target data p) = some i) :
    percentile_norm data mn mx p = (i : ℚ) / 4095 := by
  unfold percentile_norm
  dsimp only
  rw [if_neg hr, if_neg hc, hf]

lemma eval_bd : bd_of 1 (1/4095) = 1 := by
  unfold bd_of
  norm_num

lemma eval_pct_target_lo : pct_target [(0:ℚ), 1/4095] (2/10000) = 1 := by
  unfold pct_target
  have h1 : ((List.length [(0:ℚ), 1/4095] : ℕ) : ℚ) * (2/10000) = 1/2500 := by
    norm_num
  rw [h1, show (⌈(1:ℚ)/2500⌉ : ℤ) = 1 by rw [Int.ceil_eq_iff]; norm_num]
  simp

lemma eval_pct_target_hi : pct_target [(0:ℚ), 1/4095] (9998/10000) = 2 := by
  unfold pct_target
  have h1 : ((List.length [(0:ℚ), 1/4095] : ℕ) : ℚ) * (9998/10000) = 4999/2500 := by
    norm_num
  rw [h1, show (⌈(4999:ℚ)/2500⌉ : ℤ) = 2 by rw [Int.ceil_eq_iff]; norm_num]
  simp

lemma eval_binOf_zero : binOf 0 1 0 = 0 := by
  unfold binOf
  rw [show ((0:ℚ) - 0) / 1 = 0 by norm_num,
    clampQ_eq_self 0 0 1 (by norm_num) (by norm_num),
    show (0:ℚ) * 4095 = 0 by norm_num]
  simp

lemma eval_binOf_one : binOf 0 1 ((4095:ℚ)⁻¹) = 1 := by
  unfold binOf
  rw [show ((4095:ℚ)⁻¹ - 0) / 1 = 1/4095 by norm_num,
    clampQ_eq_self (1/4095) 0 1 (by norm_num) (by norm_num),
    show ((1:ℚ)/4095) * 4095 = 1 by norm_num]
  simp

lemma eval_cum_zero : cumCount [(0:ℚ), (4095:ℚ)⁻¹] 0 1 0 = 1 := by
  unfold cumCount
  simp [List.filter_cons, eval_binOf_zero, eval_binOf_one]

lemma eval_cum_one : cumCount [(0:ℚ), (4095:ℚ)⁻¹] 0 1 1 = 2 := by
  unfold cumCount
  simp [List.filter_cons, eval_binOf_zero, eval_binOf_one]

lemma eval_pct_find_lo : pct_find [(0:ℚ), 1/4095] 0 (1 - 0) 1 = some 0 := by
  rw [show ((1:ℚ) - 0) = 1 by norm_num]
  unfold pct_find
  apply find?_range_zero _ _ (by norm_num)
  simp [eval_cum_zero]

lemma eval_pct_find_hi : pct_find [(0:ℚ), 1/4095] 0 (1 - 0) 2 = some 1 := by
  rw [show ((1:ℚ) - 0) = 1 by norm_num]
  unfold pct_find
  apply find?_range_one _ _ (by norm_num)
  · simp [eval_cum_zero]
  · simp [eval_cum_one]

lemma eval_lo : lo_bd_of [(0:ℚ), 1/4095] 1 = 0 := by
  unfold lo_bd_of
  rw [percentile_norm_eq_of_find _ _ _ _ 0 (by norm_num) (by simp)
    (by rw [eval_pct_target_lo]; exact eval_pct_find_lo)]
  norm_num

lemma eval_hi : hi_bd_of [(0:ℚ), 1/4095] 1 = 1/4095 := by
  unfold hi_bd_of
  rw [percentile_norm_eq_of_find _ _ _ _ 1 (by norm_num) (by simp)
    (by rw [eval_pct_target_hi]; exact eval_pct_find_hi)]
  norm_num

lemma eval_lo_lt_hi : lo_bd_of [(0:ℚ), 1/4095] (bd_of 1 (1/4095)) <
    hi_bd_of [(0:ℚ), 1/4095] (bd_of 1 (1/4095)) := by
  rw [eval_bd, eval_lo, eval_hi]
  norm_num

/-- Witness for C2 at a concrete non-degenerate two-pixel plane. -/
theorem autostretch_lut_monotone_witness :
    (0:ℚ) < 1/4095 ∧ (0:ℚ) < bd_of 1 (1/4095)
    ∧ lo_bd_of [0, 1/4095] (bd_of 1 (1/4095)) <
        hi_bd_of [0, 1/4095] (bd_of 1 (1/4095))
    ∧ (autostretch_lut [0, 1/4095] 0 (1/4095) 1).getD 0 0 ≤
        (autostretch_lut [0, 1/4095] 0 (1/4095) 1).getD 1 0 :=
  ⟨by norm_num, by rw [eval_bd]; norm_num, eval_lo_lt_hi,
    autostretch_lut_monotone [0, 1/4095] 0 (1/4095) 1 (by norm_num)
      (by rw [eval_bd]; norm_num) eval_lo_lt_hi 0 1 (by norm_num) (by norm_num)⟩

/-- Claim C4.  For every non-degenerate plane, each AutoStretch LUT entry
whose bitdepth-normalised input `x` (the entry's pixel value divided by the
normalisation ceiling, clamped to `[0,1]`) is at or below the low percentile
`lo` maps to 0, each entry with `x` at or above the high percentile maps to
255, and each entry strictly between maps to `MTF(x, m)` scaled to
`[0, 255]`. -/
theorem autostretch_lut_entry_cases (data : List ℚ) (d_min d_max bdm : ℚ)
    (hrange : d_min < d_max)
    (hbd : 0 < bd_of bdm d_max)
    (hlh : lo_bd_of data (bd_of bdm d_max) < hi_bd_of data (bd_of bdm d_max))
    (i : ℕ) (hilt : i < 4096) :
    (clampQ ((d_min + ((i : ℚ) / ((LUT_SIZE : ℚ) - 1)) * (d_max - d_min)) /
        bd_of bdm d_max) 0 1 ≤ lo_bd_of data (bd_of bdm d_max) →
      (autostretch_lut data d_min d_max bdm).getD i 0 = 0)
    ∧ (hi_bd_of data (bd_of bdm d_max) ≤
        clampQ ((d_min + ((i : ℚ) / ((LUT_SIZE : ℚ) - 1)) * (d_max - d_min)) /
          bd_of bdm d_max) 0 1 →
      (autostretch_lut data d_min d_max bdm).getD i 0 = 255)
    ∧ (lo_bd_of data (bd_of bdm d_max) <
        clampQ ((d_min + ((i : ℚ) / ((LUT_SIZE : ℚ) - 1)) * (d_max - d_min)) /
          bd_of bdm d_max) 0 1 →
      clampQ ((d_min + ((i : ℚ) / ((LUT_SIZE : ℚ) - 1)) * (d_max - d_min)) /
          bd_of bdm d_max) 0 1 < hi_bd_of data (bd_of bdm d_max) →
      (autostretch_lut data d_min d_max bdm).getD i 0 =
        mtf_out (clampQ ((d_min + ((i : ℚ) / ((LUT_SIZE : ℚ) - 1)) * (d_max - d_min)) /
          bd_of bdm d_max) 0 1)
          (m_of (xbg_of data (lo_bd_of data (bd_of bdm d_max))
            (hi_bd_of data (bd_of bdm d_max)) (bd_of bdm d_max)))) := by
  have hr : ¬ (d_max - d_min = 0) := by
    intro h
    linarith
  have hb : ¬ (bd_of bdm d_max = 0) := ne_of_gt hbd
  have hlh' : ¬ (hi_bd_of data (bd_of bdm d_max) ≤ lo_bd_of data (bd_of bdm d_max)) :=
    not_le.mpr hlh
  have hlut : autostretch_lut data d_min d_max bdm =
      (List.range LUT_SIZE).map (fun (k : ℕ) =>
        let v := d_min + ((k : ℚ) / ((LUT_SIZE : ℚ) - 1)) * (d_max - d_min)
        let x := clampQ (v / bd_of bdm d_max) 0 1
        if x ≤ lo_bd_of data (bd_of bdm d_max) then 0
        else if hi_bd_of data (bd_of bdm d_max) ≤ x then 255
        else mtf_out x (m_of (xbg_of data (lo_bd_of data (bd_of bdm d_max))
          (hi_bd_of data (bd_of bdm d_max)) (bd_of bdm d_max)))) := by
    unfold autostretch_lut
    rw [if_neg hr, if_neg hb, if_neg hlh']
  have hgd : (autostretch_lut data d_min d_max bdm).getD i 0 =
      (fun (k : ℕ) =>
        let v := d_min + ((k : ℚ) / ((LUT_SIZE : ℚ) - 1)) * (d_max - d_min)
        let x := clampQ (v / bd_of bdm d_max) 0 1
        if x ≤ lo_bd_of data (bd_of bdm d_max) then 0
        else if hi_bd_of data (bd_of bdm d_max) ≤ x then 255
        else mtf_out x (m_of (xbg_of data (lo_bd_of data (bd_of bdm d_max))
          (hi_bd_of data (bd_of bdm d_max)) (bd_of bdm d_max)))) i := by
    have hilt2 : i < LUT_SIZE := hilt
    rw [hlut, getD_map_range _ _ i hilt2]
  rw [hgd]
  dsimp only
  refine ⟨fun h1 => ?_, fun h2 => ?_, fun h3 h4 => ?_⟩
  · rw [if_pos h1]
  · have hn1 : ¬ (clampQ ((d_min + ((i : ℚ) / ((LUT_SIZE : ℚ) - 1)) * (d_max - d_min)) /
        bd_of bdm d_max) 0 1 ≤ lo_bd_of data (bd_of bdm d_max)) := by
      intro hcon
      exact hlh' (le_trans h2 hcon)
    rw [if_neg hn1, if_pos h2]
  · rw [if_neg (not_le.mpr h3), if_neg (not_le.mpr h4)]

/-- Witness for C4: the theorem applied to the concrete non-degenerate
two-pixel plane, at LUT entry 0. -/
theorem autostretch_lut_entry_cases_witness :
    (0:ℚ) < 1/4095 ∧ (0:ℚ) < bd_of 1 (1/4095)
    ∧ lo_bd_of [0, 1/4095] (bd_of 1 (1/4095)) <
        hi_bd_of [0, 1/4095] (bd_of 1 (1/4095))
    ∧ (clampQ (((0:ℚ) + (((0:ℕ) : ℚ) / ((LUT_SIZE : ℚ) - 1)) * (1/4095 - 0)) /
          bd_of 1 (1/4095)) 0 1 ≤ lo_bd_of [0, 1/4095] (bd_of 1 (1/4095)) →
        (autostretch_lut [0, 1/4095] 0 (1/4095) 1).getD 0 0 = 0) :=
  ⟨by norm_num, by rw [eval_bd]; norm_num, eval_lo_lt_hi,
    (autostretch_lut_entry_cases [0, 1/4095] 0 (1/4095) 1 (by norm_num)
      (by rw [eval_bd]; norm_num) eval_lo_lt_hi 0 (by norm_num)).1⟩

-- ---------------------------------------------------------------------------
-- String helpers (ASCII models of the Rust std string functions, defined
-- over the character list so they reduce by computation)
-- ---------------------------------------------------------------------------

/-- Rust `str::to_uppercase` (FITS headers are ASCII). -/
def toUpperS (s : String) : String := String.mk (s.data.map Char.toUpper)

/-- Rust `str::trim`: strip leading and trailing whitespace. -/
def trimS (s : String) : String :=
  String.mk (((s.data.dropWhile Char.isWhitespace).reverse.dropWhile
    Char.isWhitespace).reverse)

/-- Rust `str::trim_end`: strip trailing whitespace. -/
def trimRightS (s : String) : String :=
  String.mk ((s.data.reverse.dropWhile Char.isWhitespace).reverse)

/-- Rust `str::contains(sub)`: substring test. -/
def contains_substr (s sub : String) : Bool :=
  (List.range (s.data.length + 1)).any (fun i => sub.data.isPrefixOf (s.data.drop i))

-- ---------------------------------------------------------------------------
-- Bayer detection (detect_bayer_pattern) and image-shape decoding from
-- FitsImage::load in src/fits.rs
-- ---------------------------------------------------------------------------

/-- The `bayer::CFA` patterns recognised by the source. -/
inductive CFA
  | RGGB
  | BGGR
  | GRBG
  | GBRG
  deriving DecidableEq

/-- The source's four-armed `match` on a trimmed, upper-cased header value
(`Some("RGGB") => ...`; anything else falls through). -/
def cfa_of_string : String → Option CFA
  | "RGGB" => some CFA.RGGB
  | "BGGR" => some CFA.BGGR
  | "GRBG" => some CFA.GRBG
  | "GBRG" => some CFA.GBRG
  | _ => none

/-- The header lookup pattern used three times by `detect_bayer_pattern`:
`headers.iter().find(|(k, _)| k == key).map(|(_, v)| v.trim().to_uppercase())`. -/
def header_val (headers : List (String × String)) (key : String) : Option String :=
  (headers.find? (fun p => p.1 = key)).map (fun p => toUpperS (trimS p.2))

/-- `detect_bayer_pattern` from `src/fits.rs` (lines 163-206): BAYERPAT,
then COLORTYP, then the INSTRUME heuristic; unrecognised or absent values
fall through (`Option.bind cfa_of_string` renders the source's literal
match arms with `_ => {}` fallthrough). -/
def detect_bayer_pattern (headers : List (String × String)) : Option CFA :=
  match (header_val headers "BAYERPAT").bind cfa_of_string with
  | some c => some c
  | none =>
    match (header_val headers "COLORTYP").bind cfa_of_string with
    | some c => some c
    | none =>
      match header_val headers "INSTRUME" with
      | some s =>
        if contains_substr s "COLOR" || contains_substr s "COLOUR" ||
            contains_substr s "OSC" then
          some CFA.RGGB
        else none
      | none => none

/-- `FitsImage::load` line 82-86: Bayer detection runs only for
single-plane images (`naxis3 == 1`). -/
def load_bayer (naxis3 : ℕ) (headers : List (String × String)) : Option CFA :=
  if naxis3 = 1 then detect_bayer_pattern headers else none

/-- `FitsImage::load` line 88-112: the channel count of the decoded image
(3 on the debayer path, otherwise `naxis3`). -/
def load_channels (naxis3 : ℕ) (headers : List (String × String)) : ℕ :=
  match load_bayer naxis3 headers with
  | some _ => 3
  | none => naxis3

/-- Error kinds of the shape check in `FitsImage::load`. -/
inductive LoadError
  | UnsupportedNaxis (n : ℕ)
  deriving DecidableEq

/-- `FitsImage::load` lines 69-76: interpret the FITS shape
`[NAXIS1, NAXIS2, NAXIS3?]` as `(width, height, naxis3)`; any other axis
count is the `bail!("unsupported FITS image NAXIS={n}")` error. -/
def parse_shape : List ℕ → Except LoadError (ℕ × ℕ × ℕ)
  | [w, h] => Except.ok (w, h, 1)
  | [w, h, p] => Except.ok (w, h, p)
  | s => Except.error (LoadError.UnsupportedNaxis s.length)

/-- Claim C5.  Bayer detection follows the fixed decision order with first
match winning: a recognised BAYERPAT value decides; otherwise a recognised
COLORTYP value; otherwise an INSTRUME value containing COLOR, COLOUR or OSC
yields RGGB; otherwise none.  Plane counts of 3 or more are never treated
as mosaiced. -/
theorem detect_bayer_decision (headers : List (String × String)) (n3 : ℕ) :
    (∀ c, (header_val headers "BAYERPAT").bind cfa_of_string = some c →
      detect_bayer_pattern headers = some c)
    ∧ ((header_val headers "BAYERPAT").bind cfa_of_string = none →
      ∀ c, (header_val headers "COLORTYP").bind cfa_of_string = some c →
        detect_bayer_pattern headers = some c)
    ∧ ((header_val headers "BAYERPAT").bind cfa_of_string = none →
      (header_val headers "COLORTYP").bind cfa_of_string = none →
      ∀ s, header_val headers "INSTRUME" = some s →
        (contains_substr s "COLOR" || contains_substr s "COLOUR" ||
          contains_substr s "OSC") = true →
        detect_bayer_pattern headers = some CFA.RGGB)
    ∧ ((header_val headers "BAYERPAT").bind cfa_of_string = none →
      (header_val headers "COLORTYP").bind cfa_of_string = none →
      (∀ s, header_val headers "INSTRUME" = some s →
        (contains_substr s "COLOR" || contains_substr s "COLOUR" ||
          contains_substr s "OSC") = false) →
      detect_bayer_pattern headers = none)
    ∧ (3 ≤ n3 → load_bayer n3 headers = none) := by
  refine ⟨fun c h => ?_, fun h1 c h => ?_, fun h1 h2 s hs hk => ?_,
    fun h1 h2 hnone => ?_, fun h3 => ?_⟩
  · unfold detect_bayer_pattern
    rw [h]
  · unfold detect_bayer_pattern
    rw [h1, h]
  · unfold detect_bayer_pattern
    rw [h1, h2, hs]
    simp [hk]
  · unfold detect_bayer_pattern
    rw [h1, h2]
    rcases hi : header_val headers "INSTRUME" with _ | s
    · rfl
    · simp [hnone s hi]
  · unfold load_bayer
    rw [if_neg (by omega)]

/-- Witness for C5: a recognised lowercase padded BAYERPAT value decides
the pattern, and a 3-plane image is never mosaiced. -/
theorem detect_bayer_decision_witness :
    detect_bayer_pattern [("BAYERPAT", " rggb ")] = some CFA.RGGB
    ∧ load_bayer 3 [("BAYERPAT", " rggb ")] = none :=
  ⟨(detect_bayer_decision [("BAYERPAT", " rggb ")] 3).1 CFA.RGGB (by decide),
   (detect_bayer_decision [("BAYERPAT", " rggb ")] 3).2.2.2.2 (by norm_num)⟩

/-- Claim C10.  A BAYERPAT header with an unrecognised value (e.g. NONE)
does not stop detection: COLORTYP is consulted next, and failing that the
INSTRUME heuristic still yields RGGB for COLOR / COLOUR / OSC instruments. -/
theorem bayerpat_unrecognized_falls_through (headers : List (String × String))
    (s0 : String)
    (hfind : header_val headers "BAYERPAT" = some s0)
    (hunrec : cfa_of_string s0 = none) :
    (∀ c, (header_val headers "COLORTYP").bind cfa_of_string = some c →
      detect_bayer_pattern headers = some c)
    ∧ ((header_val headers "COLORTYP").bind cfa_of_string = none →
      ∀ s, header_val headers "INSTRUME" = some s →
        (contains_substr s "COLOR" || contains_substr s "COLOUR" ||
          contains_substr s "OSC") = true →
        detect_bayer_pattern headers = some CFA.RGGB) := by
  have h1 : (header_val headers "BAYERPAT").bind cfa_of_string = none := by
    rw [hfind]
    simpa using hunrec
  refine ⟨fun c h => ?_, fun h2 s hs hk => ?_⟩
  · unfold detect_bayer_pattern
    rw [h1, h]
  · unfold detect_bayer_pattern
    rw [h1, h2, hs]
    simp [hk]

/-- Witness for C10: BAYERPAT=NONE plus an OSC instrument still debayers
as RGGB. -/
theorem bayerpat_unrecognized_falls_through_witness :
    detect_bayer_pattern [("BAYERPAT", "NONE"), ("INSTRUME", "ZWO OSC CAMERA")] =
      some CFA.RGGB :=
  (bayerpat_unrecognized_falls_through
      [("BAYERPAT", "NONE"), ("INSTRUME", "ZWO OSC CAMERA")] "NONE"
      (by decide) (by decide)).2 (by decide) "ZWO OSC CAMERA" (by decide) (by decide)

/-- Claim C6.  A 2-axis shape `[100, 50]` decodes to width 100, height 50
and (absent a detected Bayer pattern) channel count 1; a 3-axis shape
`[100, 50, 3]` decodes to channel count 3; any other axis count fails with
the unsupported-NAXIS error. -/
theorem load_shape_spec (headers : List (String × String))
    (hnb : detect_bayer_pattern headers = none) :
    (parse_shape [100, 50] = Except.ok (100, 50, 1) ∧ load_channels 1 headers = 1)
    ∧ (parse_shape [100, 50, 3] = Except.ok (100, 50, 3) ∧
        load_channels 3 headers = 3)
    ∧ (∀ shape : List ℕ, shape.length ≠ 2 → shape.length ≠ 3 →
        parse_shape shape = Except.error (LoadError.UnsupportedNaxis shape.length)) := by
  refine ⟨⟨rfl, ?_⟩, ⟨rfl, ?_⟩, fun shape h2 h3 => ?_⟩
  · simp [load_channels, load_bayer, hnb]
  · simp [load_channels, load_bayer]
  · rcases shape with _ | ⟨a, _ | ⟨b, _ | ⟨c, _ | ⟨d, rest⟩⟩⟩⟩
    · rfl
    · rfl
    · simp at h2
    · simp at h3
    · rfl

/-- Witness for C6 with an empty header list (no Bayer pattern). -/
theorem load_shape_spec_witness :
    (parse_shape [100, 50] = Except.ok (100, 50, 1) ∧ load_channels 1 [] = 1)
    ∧ parse_shape [7] = Except.error (LoadError.UnsupportedNaxis 1) :=
  ⟨(load_shape_spec [] (by decide)).1,
   (load_shape_spec [] (by decide)).2.2 [7] (by norm_num) (by norm_num)⟩

-- ---------------------------------------------------------------------------
-- Display pipeline: data_min_max, linear_lut, to_rgba_gray, to_rgba_rgb,
-- FitsImage::to_rgba from src/fits.rs
-- ---------------------------------------------------------------------------

/-- `Stretch` enum from `src/fits.rs`. -/
inductive Stretch
  | Linear
  | AutoStretch
  deriving DecidableEq

/-- `ChannelView` enum from `src/fits.rs`. -/
inductive ChannelView
  | Rgb
  | Single (i : ℕ)
  deriving DecidableEq

/-- `data_min_max` from `src/fits.rs` (lines 533-543).  The source folds
with `f32::MAX` / `f32::MIN` sentinels and returns `(0, 1)` when `min > max`
at the end; over `ℚ` (no infinities, every sample finite) that sentinel
case is reached exactly for the empty list. -/
def data_min_max (data : List ℚ) : ℚ × ℚ :=
  match data with
  | [] => (0, 1)
  | v :: rest => (rest.foldl min v, rest.foldl max v)

/-- `linear_lut` from `src/fits.rs` (lines 330-334): identity ramp
(the `_min`/`_max` arguments are unused, as in the source). -/
def linear_lut (_mn _mx : ℚ) : List ℕ :=
  (List.range LUT_SIZE).map (fun (i : ℕ) =>
    (roundQ ((i : ℚ) / ((LUT_SIZE : ℚ) - 1) * 255)).toNat)

/-- `to_rgba_gray` from `src/fits.rs` (lines 260-278).  The source
pre-fills the output with 255 and overwrites bytes `4i..4i+2`; the
observably identical rendering here emits one `[g, g, g, 255]` block per
pixel. -/
def to_rgba_gray (plane : List ℚ) (stretch : Stretch) (bitdepth_max : ℚ) :
    List ℕ :=
  let mm := data_min_max plane
  let lut := match stretch with
    | Stretch.Linear => linear_lut mm.1 mm.2
    | Stretch.AutoStretch => autostretch_lut plane mm.1 mm.2 bitdepth_max
  let scale := if mm.2 = mm.1 then 0 else ((LUT_SIZE : ℚ) - 1) / (mm.2 - mm.1)
  plane.flatMap (fun v =>
    let idx := min (Int.toNat ⌊(v - mm.1) * scale + 1/2⌋) (LUT_SIZE - 1)
    let g := lut.getD idx 0
    [g, g, g, 255])

/-- `to_rgba_rgb` from `src/fits.rs` (lines 280-321).  The scoped threads
of the AutoStretch arm compute the three channel LUTs independently and
join before compositing, so their result is the three independent
`autostretch_lut` calls. -/
def to_rgba_rgb (r g b : List ℚ) (stretch : Stretch) (bitdepth_max : ℚ) :
    List ℕ :=
  let rmm := data_min_max r
  let gmm := data_min_max g
  let bmm := data_min_max b
  let luts := match stretch with
    | Stretch.Linear =>
      (linear_lut rmm.1 rmm.2, linear_lut gmm.1 gmm.2, linear_lut bmm.1 bmm.2)
    | Stretch.AutoStretch =>
      (autostretch_lut r rmm.1 rmm.2 bitdepth_max,
       autostretch_lut g gmm.1 gmm.2 bitdepth_max,
       autostretch_lut b bmm.1 bmm.2 bitdepth_max)
  let rscale := if rmm.2 = rmm.1 then 0 else ((LUT_SIZE : ℚ) - 1) / (rmm.2 - rmm.1)
  let gscale := if gmm.2 = gmm.1 then 0 else ((LUT_SIZE : ℚ) - 1) / (gmm.2 - gmm.1)
  let bscale := if bmm.2 = bmm.1 then 0 else ((LUT_SIZE : ℚ) - 1) / (bmm.2 - bmm.1)
  (List.range r.length).flatMap (fun i =>
    let ri := min (Int.toNat ⌊(r.getD i 0 - rmm.1) * rscale + 1/2⌋) (LUT_SIZE - 1)
    let gi := min (Int.toNat ⌊(g.getD i 0 - gmm.1) * gscale + 1/2⌋) (LUT_SIZE - 1)
    let bi := min (Int.toNat ⌊(b.getD i 0 - bmm.1) * bscale + 1/2⌋) (LUT_SIZE - 1)
    [luts.1.getD ri 0, luts.2.1.getD gi 0, luts.2.2.getD bi 0, 255])

/-- `FitsImage` from `src/fits.rs` (lines 29-42). -/
structure FitsImage where
  width : ℕ
  height : ℕ
  channels : ℕ
  data : List ℚ
  headers : List (String × String)
  bitdepth_max : ℚ

/-- `FitsImage::to_rgba` from `src/fits.rs` (lines 126-154): same match
arms in the same order (first match wins, as in Rust). -/
def FitsImage.to_rgba (img : FitsImage) (stretch : Stretch)
    (view : ChannelView) : List ℕ :=
  let npix := img.width * img.height
  let bd := img.bitdepth_max
  match img.channels, view with
  | 1, _ => to_rgba_gray (img.data.take npix) stretch bd
  | _, ChannelView.Single c =>
    let c2 := min c (img.channels - 1)
    to_rgba_gray ((img.data.drop (c2 * npix)).take npix) stretch bd
  | 3, ChannelView.Rgb =>
    to_rgba_rgb (img.data.take npix) ((img.data.drop npix).take npix)
      ((img.data.drop (2 * npix)).take npix) stretch bd
  | _, _ => to_rgba_gray (img.data.take (min npix img.data.length)) stretch bd

-- ---------------------------------------------------------------------------
-- Generic facts about flatMap with fixed-size 4-byte pixel blocks
-- ---------------------------------------------------------------------------

lemma flatMap_quad_length {α : Type} (l : List α) (f : α → List ℕ)
    (hf : ∀ a, (f a).length = 4) : (l.flatMap f).length = 4 * l.length := by
  induction l with
  | nil => simp
  | cons a t ih =>
    rw [List.flatMap_cons, List.length_append, hf, ih, List.length_cons]
    ring

lemma flatMap_quad_getD {α : Type} (l : List α) (f : α → List ℕ)
    (hf : ∀ a, (f a).length = 4) (k j n : ℕ) (hn : n = 4 * k + j)
    (hk : k < l.length) (hj : j < 4) (a0 : α) :
    (l.flatMap f).getD n 0 = (f (l.getD k a0)).getD j 0 := by
  subst hn
  induction l generalizing k with
  | nil => simp at hk
  | cons a t ih =>
    rcases k with _ | k
    · rw [List.flatMap_cons, List.getD_cons_zero,
        List.getD_eq_getElem?_getD, List.getElem?_append]
      rw [if_pos (by rw [hf]; omega)]
      rw [← List.getD_eq_getElem?_getD]
      congr 1
      omega
    · rw [List.flatMap_cons, List.getD_cons_succ,
        List.getD_eq_getElem?_getD,
        List.getElem?_append_right (by rw [hf]; omega),
        ← List.getD_eq_getElem?_getD]
      rw [show 4 * (k + 1) + j - (f a).length = 4 * k + j from by rw [hf]; omega]
      exact ih k (by simpa using hk)

lemma flatMap_rgb_facts {α : Type} (l : List α) (f1 f2 f3 : α → ℕ) (a0 : α) :
    ((l.flatMap (fun v => [f1 v, f2 v, f3 v, 255])).length = 4 * l.length)
    ∧ (∀ k, k < l.length →
      (l.flatMap (fun v => [f1 v, f2 v, f3 v, 255])).getD (4 * k) 0 =
          f1 (l.getD k a0)
      ∧ (l.flatMap (fun v => [f1 v, f2 v, f3 v, 255])).getD (4 * k + 1) 0 =
          f2 (l.getD k a0)
      ∧ (l.flatMap (fun v => [f1 v, f2 v, f3 v, 255])).getD (4 * k + 2) 0 =
          f3 (l.getD k a0)
      ∧ (l.flatMap (fun v => [f1 v, f2 v, f3 v, 255])).getD (4 * k + 3) 0 =
          255) := by
  have hf : ∀ a, ((fun v => [f1 v, f2 v, f3 v, 255]) a).length = 4 := fun a => rfl
  refine ⟨flatMap_quad_length _ _ hf, fun k hk => ?_⟩
  rw [flatMap_quad_getD _ _ hf k 0 _ (by omega) hk (by omega) a0,
    flatMap_quad_getD _ _ hf k 1 _ rfl hk (by omega) a0,
    flatMap_quad_getD _ _ hf k 2 _ rfl hk (by omega) a0,
    flatMap_quad_getD _ _ hf k 3 _ rfl hk (by omega) a0]
  exact ⟨rfl, rfl, rfl, rfl⟩

lemma to_rgba_gray_length (plane : List ℚ) (st : Stretch) (bd : ℚ) :
    (to_rgba_gray plane st bd).length = 4 * plane.length := by
  unfold to_rgba_gray
  dsimp only
  exact (flatMap_rgb_facts plane _ _ _ 0).1

lemma to_rgba_gray_pixel (plane : List ℚ) (st : Stretch) (bd : ℚ) (k : ℕ)
    (hk : k < plane.length) :
    (to_rgba_gray plane st bd).getD (4 * k + 3) 0 = 255
    ∧ (to_rgba_gray plane st bd).getD (4 * k) 0 =
        (to_rgba_gray plane st bd).getD (4 * k + 1) 0
    ∧ (to_rgba_gray plane st bd).getD (4 * k + 1) 0 =
        (to_rgba_gray plane st bd).getD (4 * k + 2) 0 := by
  unfold to_rgba_gray
  dsimp only
  obtain ⟨h0, h1, h2, h3⟩ := (flatMap_rgb_facts plane _ _ _ 0).2 k hk
  exact ⟨h3, h0.trans h1.symm, h1.trans h2.symm⟩

lemma to_rgba_rgb_length (r g b : List ℚ) (st : Stretch) (bd : ℚ) :
    (to_rgba_rgb r g b st bd).length = 4 * r.length := by
  unfold to_rgba_rgb
  dsimp only
  rw [(flatMap_rgb_facts (List.range r.length) _ _ _ 0).1]
  rw [List.length_range]

lemma to_rgba_rgb_alpha (r g b : List ℚ) (st : Stretch) (bd : ℚ) (k : ℕ)
    (hk : k < r.length) :
    (to_rgba_rgb r g b st bd).getD (4 * k + 3) 0 = 255 := by
  unfold to_rgba_rgb
  dsimp only
  exact ((flatMap_rgb_facts (List.range r.length) _ _ _ 0).2 k
    (by rw [List.length_range]; exact hk)).2.2.2

lemma slice_length (data : List ℚ) (o n : ℕ) (h : o + n ≤ data.length) :
    ((data.drop o).take n).length = n := by
  rw [List.length_take, List.length_drop]
  omega

lemma npix_le_mul (npix ch : ℕ) (hc : 1 ≤ ch) : npix ≤ npix * ch :=
  Nat.le_mul_of_pos_right _ (by omega)

/-- Claim C8.  For a loaded image with `channels ≥ 1`, a requested
single-channel view with out-of-range index `i ≥ channels` is clamped to
`channels - 1`: `to_rgba` renders that plane as grayscale, and the plane
slice stays inside the sample buffer. -/
theorem to_rgba_single_clamps (img : FitsImage) (st : Stretch) (i : ℕ)
    (hc : 1 ≤ img.channels) (hge : img.channels ≤ i)
    (hlen : img.data.length = img.width * img.height * img.channels) :
    img.to_rgba st (ChannelView.Single i) =
      to_rgba_gray ((img.data.drop
        ((img.channels - 1) * (img.width * img.height))).take
        (img.width * img.height)) st img.bitdepth_max
    ∧ (img.channels - 1) * (img.width * img.height) + img.width * img.height ≤
        img.data.length := by
  obtain ⟨w, h, ch, data, hdrs, bdm⟩ := img
  dsimp only at hc hge hlen ⊢
  rcases ch with _ | _ | n
  · omega
  · rw [Nat.mul_one] at hlen
    simp only [FitsImage.to_rgba]
    constructor
    · norm_num
    · simp only [Nat.sub_self, Nat.zero_mul, Nat.zero_add]
      rw [hlen]
  · simp only [FitsImage.to_rgba, Nat.add_sub_cancel]
    have hmin : min i (n + 1) = n + 1 := min_eq_right (by omega)
    constructor
    · rw [hmin]
    · have heq : (n + 1) * (w * h) + w * h = w * h * (n + 1 + 1) := by
        ring
      rw [heq, hlen]

/-- Witness for C8: a 1x1 single-plane image with the out-of-range view
index 5 is clamped to plane 0. -/
theorem to_rgba_single_clamps_witness :
    (FitsImage.mk 1 1 1 [0] [] 0).to_rgba Stretch.Linear (ChannelView.Single 5) =
      to_rgba_gray ((([0] : List ℚ).drop ((1 - 1) * (1 * 1))).take (1 * 1))
        Stretch.Linear 0
    ∧ (1 - 1) * (1 * 1) + 1 * 1 ≤ ([0] : List ℚ).length :=
  to_rgba_single_clamps (FitsImage.mk 1 1 1 [0] [] 0) Stretch.Linear 5
    (by norm_num) (by norm_num) (by norm_num)

/-- Claim C9.  For every loaded image (planar sample invariant, at least
one channel), every stretch mode and every channel selection, `to_rgba`
returns exactly `width*height*4` bytes with every pixel's alpha byte 255,
and for a single-channel (or single-plane) selection the same gray value is
written to the R, G and B bytes of each pixel. -/
theorem to_rgba_spec (img : FitsImage) (st : Stretch) (view : ChannelView)
    (hc : 1 ≤ img.channels)
    (hlen : img.data.length = img.width * img.height * img.channels) :
    (img.to_rgba st view).length = img.width * img.height * 4
    ∧ (∀ k, k < img.width * img.height →
        (img.to_rgba st view).getD (4 * k + 3) 0 = 255)
    ∧ (((∃ c, view = ChannelView.Single c) ∨ img.channels = 1) →
        ∀ k, k < img.width * img.height →
          (img.to_rgba st view).getD (4 * k) 0 =
            (img.to_rgba st view).getD (4 * k + 1) 0
          ∧ (img.to_rgba st view).getD (4 * k + 1) 0 =
            (img.to_rgba st view).getD (4 * k + 2) 0) := by
  obtain ⟨w, h, ch, data, hdrs, bdm⟩ := img
  dsimp only at hc hlen ⊢
  rcases ch with _ | _ | n
  · omega
  · -- single plane: gray path for every view
    rw [Nat.mul_one] at hlen
    simp only [FitsImage.to_rgba]
    have hpl : (data.take (w * h)).length = w * h := by
      rw [List.length_take, hlen]
      exact Nat.min_self _
    refine ⟨by rw [to_rgba_gray_length, hpl]; ring, fun k hk => ?_, fun _ k hk => ?_⟩
    · exact (to_rgba_gray_pixel _ st bdm k (by rw [hpl]; exact hk)).1
    · exact (to_rgba_gray_pixel _ st bdm k (by rw [hpl]; exact hk)).2
  · rcases view with _ | c
    · -- Rgb view, channels = n + 2
      rcases n with _ | _ | m
      · -- channels = 2: fallback gray on the first plane
        simp only [FitsImage.to_rgba]
        have hle : w * h ≤ data.length := by
          rw [hlen]
          exact npix_le_mul _ _ (by omega)
        have hpl : (data.take (min (w * h) data.length)).length = w * h := by
          rw [List.length_take, min_eq_left hle, min_eq_left hle]
        refine ⟨by rw [to_rgba_gray_length, hpl]; ring, fun k hk => ?_,
          fun hcon k hk => ?_⟩
        · exact (to_rgba_gray_pixel _ st bdm k (by rw [hpl]; exact hk)).1
        · rcases hcon with ⟨c, hcv⟩ | h1
          · cases hcv
          · omega
      · -- channels = 3: true RGB compositing
        simp only [FitsImage.to_rgba]
        have hle : w * h ≤ data.length := by
          rw [hlen]
          exact npix_le_mul _ _ (by omega)
        have hpl : (data.take (w * h)).length = w * h := by
          rw [List.length_take, min_eq_left hle]
        refine ⟨by rw [to_rgba_rgb_length, hpl]; ring, fun k hk => ?_,
          fun hcon k hk => ?_⟩
        · exact to_rgba_rgb_alpha _ _ _ st bdm k (by rw [hpl]; exact hk)
        · rcases hcon with ⟨c, hcv⟩ | h1
          · cases hcv
          · omega
      · -- channels = m + 4: fallback gray on the first plane
        simp only [FitsImage.to_rgba]
        have hle : w * h ≤ data.length := by
          rw [hlen]
          exact npix_le_mul _ _ (by omega)
        have hpl : (data.take (min (w * h) data.length)).length = w * h := by
          rw [List.length_take, min_eq_left hle, min_eq_left hle]
        refine ⟨by rw [to_rgba_gray_length, hpl]; ring, fun k hk => ?_,
          fun hcon k hk => ?_⟩
        · exact (to_rgba_gray_pixel _ st bdm k (by rw [hpl]; exact hk)).1
        · rcases hcon with ⟨c, hcv⟩ | h1
          · cases hcv
          · omega
    · -- Single c view, channels = n + 2: sliced gray plane
      simp only [FitsImage.to_rgba, Nat.add_sub_cancel]
      have hb : min c (n + 1) * (w * h) + w * h ≤ data.length := by
        rw [hlen]
        have h1 : min c (n + 1) ≤ n + 1 := Nat.min_le_right _ _
        calc min c (n + 1) * (w * h) + w * h
            ≤ (n + 1) * (w * h) + w * h :=
              Nat.add_le_add_right (Nat.mul_le_mul_right _ h1) _
          _ = w * h * (n + 1 + 1) := by ring
      have hpl : ((data.drop (min c (n + 1) * (w * h))).take (w * h)).length =
          w * h := slice_length _ _ _ hb
      refine ⟨by rw [to_rgba_gray_length, hpl]; ring, fun k hk => ?_,
        fun _ k hk => ?_⟩
      · exact (to_rgba_gray_pixel _ st bdm k (by rw [hpl]; exact hk)).1
      · exact (to_rgba_gray_pixel _ st bdm k (by rw [hpl]; exact hk)).2

/-- Witness for C9: a 1x1 single-plane image rendered as RGBA. -/
theorem to_rgba_spec_witness :
    ((FitsImage.mk 1 1 1 [0] [] 0).to_rgba Stretch.Linear ChannelView.Rgb).length =
      1 * 1 * 4
    ∧ ((FitsImage.mk 1 1 1 [0] [] 0).to_rgba Stretch.Linear
        ChannelView.Rgb).getD 3 0 = 255 :=
  ⟨(to_rgba_spec (FitsImage.mk 1 1 1 [0] [] 0) Stretch.Linear ChannelView.Rgb
      (by norm_num) (by norm_num)).1,
   (to_rgba_spec (FitsImage.mk 1 1 1 [0] [] 0) Stretch.Linear ChannelView.Rgb
      (by norm_num) (by norm_num)).2.1 0 (by norm_num)⟩

-- ---------------------------------------------------------------------------
-- Header reader: the card parsing of read_headers (src/fits.rs 584-622)
-- ---------------------------------------------------------------------------

/-- The FITS single-quote character (written by code point to keep the
source free of quote literals). -/
def quoteChar : Char := Char.ofNat 39

/-- A one-character string holding the FITS quote. -/
def quoteStr : String := String.singleton quoteChar

/-- Rust `str::starts_with` over the character list. -/
def starts_with (s p : String) : Bool := p.data.isPrefixOf s.data

/-- Rust `str::ends_with` over the character list. -/
def ends_with (s p : String) : Bool := p.data.isSuffixOf s.data

/-- Rust `str::find(sub)`: index of the first occurrence of `sub`. -/
def find_sub (s sub : String) : Option ℕ :=
  (List.range (s.data.length + 1)).find? (fun i => sub.data.isPrefixOf (s.data.drop i))

/-- Rust `str::replace(pat, rep)`: replace non-overlapping occurrences left
to right. -/
def replace_sub (pat rep : List Char) : List Char → List Char
  | [] => []
  | c :: rest =>
    if h : pat ≠ [] ∧ pat.isPrefixOf (c :: rest) = true then
      rep ++ replace_sub pat rep ((c :: rest).drop pat.length)
    else c :: replace_sub pat rep rest
termination_by l => l.length
decreasing_by
  all_goals simp only [List.length_drop, List.length_cons]
  · have hp : 0 < pat.length := List.length_pos.mpr h.1
    omega
  · omega

/-- The quote scan of `strip_fits_comment` (`src/fits.rs` lines 658-672):
index of the closing quote, treating doubled quotes as escaped; `none` when
the scan runs off the end. -/
def closing_quote_idx (cs : List Char) (i : ℕ) : Option ℕ :=
  if h : i < cs.length then
    if cs.get ⟨i, h⟩ = quoteChar then
      if h2 : i + 1 < cs.length then
        if cs.get ⟨i + 1, h2⟩ = quoteChar then closing_quote_idx cs (i + 2)
        else some i
      else some i
    else closing_quote_idx cs (i + 1)
  else none
termination_by cs.length - i
decreasing_by
  all_goals omega

/-- `strip_fits_comment` from `src/fits.rs` (lines 654-681): remove the
` / comment` part of a FITS value field, respecting quoted strings. -/
def strip_fits_comment (s0 : String) : String :=
  let s := trimS s0
  if starts_with s quoteStr then
    match closing_quote_idx s.data 1 with
    | some i => String.mk (s.data.take (i + 1))
    | none => s
  else
    match find_sub s " / " with
    | some pos => trimRightS (String.mk (s.data.take pos))
    | none => s

/-- The structural/commentary keys skipped by `read_headers`. -/
def excluded_key (k : String) : Bool :=
  k = "" || k = "COMMENT" || k = "HISTORY" || k = "END" || k = "CONTINUE"

/-- One 80-byte record parsed as in the target-HDU loop of `read_headers`
(`src/fits.rs` lines 587-619): `none` for short or structural/commentary
cards, otherwise the `(key, value)` pair that the loop pushes. -/
def parse_card (rec : String) : Option (String × String) :=
  let card := trimRightS rec
  if card.length < 8 then none
  else
    let key := trimS (card.take 8)
    if excluded_key key then none
    else
      let value :=
        if 10 < card.length ∧ (card.drop 8).take 2 = "= " then
          let val_str := trimS (strip_fits_comment (trimS (card.drop 10)))
          if starts_with val_str quoteStr ∧ ends_with val_str quoteStr ∧
              2 ≤ val_str.length then
            trimS (String.mk (replace_sub (quoteStr ++ quoteStr).data
              quoteStr.data ((val_str.drop 1).take (val_str.length - 2)).data))
          else val_str
        else if 8 < card.length then trimS (card.drop 8)
        else ""
      some (key, value)

/-- Byte-wise lexicographic `≤` of Rust `str::cmp` over the character
lists (for ASCII FITS keys, byte order and character order coincide). -/
def cmp_le : List Char → List Char → Bool
  | [], _ => true
  | _ :: _, [] => false
  | c1 :: t1, c2 :: t2 =>
    if c1 = c2 then cmp_le t1 t2 else decide (c1 < c2)

/-- The target-HDU portion of `read_headers` (`src/fits.rs` lines 584-622)
applied to the 80-character records of the header: parse each card and sort
by key (Rust's stable `sort_by` rendered by the stable `List.mergeSort`). -/
def read_headers_cards (cards : List String) : List (String × String) :=
  (cards.filterMap parse_card).mergeSort (fun a b => cmp_le a.1.data b.1.data)

lemma cmp_le_total (a b : List Char) : (cmp_le a b || cmp_le b a) = true := by
  induction a generalizing b with
  | nil => simp [cmp_le]
  | cons c1 t1 ih =>
    cases b with
    | nil => simp [cmp_le]
    | cons c2 t2 =>
      by_cases h : c1 = c2
      · subst h
        simpa [cmp_le] using ih t2
      · have h2 : ¬ c2 = c1 := fun hh => h hh.symm
        simp only [cmp_le, if_neg h, if_neg h2, Bool.or_eq_true, decide_eq_true_eq]
        rcases lt_or_gt_of_ne h with hlt | hgt
        · exact Or.inl hlt
        · exact Or.inr hgt

lemma cmp_le_trans (a b c : List Char) (h1 : cmp_le a b = true)
    (h2 : cmp_le b c = true) : cmp_le a c = true := by
  induction a generalizing b c with
  | nil => simp [cmp_le]
  | cons c1 t1 ih =>
    cases b with
    | nil => simp [cmp_le] at h1
    | cons c2 t2 =>
      cases c with
      | nil => simp [cmp_le] at h2
      | cons c3 t3 =>
        by_cases e12 : c1 = c2 <;> by_cases e23 : c2 = c3
        · subst e12
          subst e23
          rw [cmp_le, if_pos rfl] at h1 h2 ⊢
          exact ih t2 t3 h1 h2
        · subst e12
          rw [cmp_le, if_neg e23] at h2 ⊢
          exact h2
        · subst e23
          rw [cmp_le, if_neg e12] at h1 ⊢
          exact h1
        · rw [cmp_le, if_neg e12] at h1
          rw [cmp_le, if_neg e23] at h2
          have hlt : c1 < c3 :=
            lt_trans (of_decide_eq_true h1) (of_decide_eq_true h2)
          have e13 : ¬ c1 = c3 := ne_of_lt hlt
          rw [cmp_le, if_neg e13]
          exact decide_eq_true hlt

lemma parse_card_not_excluded (rec : String) (p : String × String)
    (h : parse_card rec = some p) : excluded_key p.1 = false := by
  unfold parse_card at h
  dsimp only at h
  by_cases h8 : (trimRightS rec).length < 8
  · rw [if_pos h8] at h
    cases h
  · rw [if_neg h8] at h
    by_cases hex : excluded_key (trimS ((trimRightS rec).take 8)) = true
    · rw [if_pos hex] at h
      cases h
    · rw [if_neg hex] at h
      have hkey : p.1 = trimS ((trimRightS rec).take 8) := by
        injection h with h2
        rw [← h2]
      rw [hkey]
      exact Bool.eq_false_iff.mpr hex

/-- Claim C7 (amended).  For every parsed header data unit, the returned
header list excludes every card whose key is empty, COMMENT, HISTORY, END
or CONTINUE and is sorted ascending by key; its keys are unique whenever no
key occurs twice among the unit's parsed (non-excluded) cards (only the
uniqueness conjunct is conditioned on duplicate-free input). -/
theorem read_headers_spec (cards : List String) :
    (∀ p ∈ read_headers_cards cards, excluded_key p.1 = false)
    ∧ List.Pairwise (fun a b : String × String => cmp_le a.1.data b.1.data = true)
        (read_headers_cards cards)
    ∧ (((cards.filterMap parse_card).map Prod.fst).Nodup →
        ((read_headers_cards cards).map Prod.fst).Nodup) := by
  refine ⟨fun p hp => ?_, ?_, fun hnd => ?_⟩
  · rw [read_headers_cards, List.mem_mergeSort] at hp
    obtain ⟨rec, _, hparse⟩ := List.mem_filterMap.mp hp
    exact parse_card_not_excluded rec p hparse
  · exact List.sorted_mergeSort
      (fun a b c => cmp_le_trans a.1.data b.1.data c.1.data)
      (fun a b => cmp_le_total a.1.data b.1.data) _
  · exact (((cards.filterMap parse_card).mergeSort_perm _).map Prod.fst).nodup_iff.mpr hnd

/-- Witness for C7's amended theorem on a single well-formed card,
discharging the uniqueness conjunct's duplicate-free hypothesis. -/
theorem read_headers_spec_witness :
    (((["SIMPLE  =                    T"] : List String).filterMap
        parse_card).map Prod.fst).Nodup
    ∧ ((read_headers_cards ["SIMPLE  =                    T"]).map
        Prod.fst).Nodup := by
  have h : (((["SIMPLE  =                    T"] : List String).filterMap
      parse_card).map Prod.fst).Nodup := by decide
  exact ⟨h, (read_headers_spec ["SIMPLE  =                    T"]).2.2 h⟩

/-- Counterexample to C7 as stated: a header data unit containing two
cards with the same key yields that key twice in the output. -/
theorem read_headers_dup_counterexample :
    ¬ (((read_headers_cards ["EXPTIME =                    1",
        "EXPTIME =                    2"]).map Prod.fst).Nodup) := by
  intro hnd
  have h2 : (((["EXPTIME =                    1",
      "EXPTIME =                    2"] : List String).filterMap
      parse_card).map Prod.fst).Nodup :=
    (((((["EXPTIME =                    1",
      "EXPTIME =                    2"] : List String).filterMap
      parse_card).mergeSort_perm _).map Prod.fst).nodup_iff).mp hnd
  revert h2
  decide

end Fastfits
